import Mathlib

/-!
Shallow embedding of `src/MedicalParserVercelVersion.py` (class
`MedicalPDFClaimsParser`), the patient-block segmentation and spatial
field-localization engine of the pdf-medical-parser repository.

Modelling conventions:
* Page coordinates are integers (the source only compares them and
  adds/subtracts integer constants; `int(...)` casts are the identity here).
* The PyMuPDF document-access layer (`page.get_text`, `page.search_for`,
  `fitz.Rect` clipping, `page.rect`) is the external capability interface of
  the program; a `Page` carries those capabilities as function fields.
  `search_for` with an empty needle returns the empty list.
* An uncaught Python exception (`KeyError` on a missing geometry key,
  `ValueError` from unpacking a too-short list, an error raised by
  `fitz.open`) is modelled as `none` / propagated through `Option`.
* Python `set` iteration order (used by the single-page service-code and
  modifier extractors) is modelled as insertion order: within one process it
  is a deterministic function of the insertion sequence.
* Text handed over by the document layer is assumed to use `'\n'` line
  terminators, so `str.splitlines` is modelled as splitting at `'\n'`.
-/

namespace MedParse

/-! ### Python string primitives -/

/-- Python `\s` / `str.strip` whitespace class. -/
def pyIsSpace (c : Char) : Bool :=
  c = ' ' || c = '\t' || c = '\n' || c = '\r' || c = '\x0b' || c = '\x0c'

def stripL (l : List Char) : List Char :=
  ((l.dropWhile pyIsSpace).reverse.dropWhile pyIsSpace).reverse

/-- Python `str.strip()`. -/
def pyStrip (s : String) : String := String.mk (stripL s.toList)

/-- Helper for `pySplitlines`: `cur` holds the current line reversed; a
trailing line is emitted only when non-empty (Python emits no empty final
line after a trailing terminator, and no line at all for the empty
string). -/
def splitLinesAux : List Char → List Char → List (List Char)
  | cur, [] => if cur.isEmpty then [] else [cur.reverse]
  | cur, c :: rest =>
      if c = '\n' then cur.reverse :: splitLinesAux [] rest
      else splitLinesAux (c :: cur) rest

/-- Python `str.splitlines()` for `'\n'`-terminated text. -/
def pySplitlines (s : String) : List String := (splitLinesAux [] s.toList).map String.mk

/-- Python `str.lstrip("\n")`. -/
def lstripNl (s : String) : String :=
  String.mk (s.toList.dropWhile (fun c => c = '\n'))

/-- Maximal-munch `\s*` (always followed by a non-whitespace literal in the
source patterns, so maximal munch is exact). -/
def dropWs (l : List Char) : List Char := l.dropWhile pyIsSpace

/-- Match a literal prefix, returning the rest of the input. -/
def stripPrefixL : List Char → List Char → Option (List Char)
  | [], s => some s
  | _ :: _, [] => none
  | p :: ps, c :: cs => if p = c then stripPrefixL ps cs else none

theorem dropWhile_len_le (p : Char → Bool) :
    ∀ l : List Char, (l.dropWhile p).length ≤ l.length := by
  intro l
  induction l with
  | nil => simp [List.dropWhile]
  | cons c cs ih =>
    by_cases h : p c = true
    · simp [List.dropWhile, h]; omega
    · simp [List.dropWhile, h]

/-- `re.sub(r'\-{2,}', ' ', text)`: collapse every run of two or more dashes
to a single space. -/
def collapseDashesAux : List Char → List Char
  | [] => []
  | '-' :: '-' :: rest => ' ' :: collapseDashesAux (rest.dropWhile (fun c => c = '-'))
  | c :: rest => c :: collapseDashesAux rest
termination_by l => l.length
decreasing_by
  · have := dropWhile_len_le (fun c => c = '-') rest
    simp only [List.length_cons]
    omega
  · simp only [List.length_cons]
    omega

/-! ### A deterministic matcher for the source's regular expressions

Every pattern in the source has the shape
`LIT \s* LIT \s* ... : ( capture )` where the capture is one of
`(.+?)LIT`, `(.+?)\s*LIT`, `(.+?)\n`, `(.+?)(?=ORIG|\n|$)`, `([^\n]+)` or
`(.+)\n?` (all with `re.DOTALL`).  Because `\s*` is always followed by a
token starting with a non-whitespace character, backtracking never helps and
maximal munch is exact; lazy `(.+?)` takes the shortest non-empty capture
whose continuation matches. -/

inductive PTok
  | lit (t : List Char)
  | ws
deriving Repr

inductive CapKind
  | lazyLit (t : List Char)
  | lazyWsLit (t : List Char)
  | lazyNl
  | lazyAltOrigNlEnd
  | nonNlPlus
  | greedyRestOptNl
deriving Repr

def matchToks : List PTok → List Char → Option (List Char)
  | [], s => some s
  | PTok.lit t :: ts, s =>
      match stripPrefixL t s with
      | some r => matchToks ts r
      | none => none
  | PTok.ws :: ts, s => matchToks ts (dropWs s)

def isPrefixL (p s : List Char) : Bool := (stripPrefixL p s).isSome

/-- Does the capture's continuation match at this point? -/
def stopHolds : CapKind → List Char → Bool
  | CapKind.lazyLit t, s => isPrefixL t s
  | CapKind.lazyWsLit t, s => isPrefixL t (dropWs s)
  | CapKind.lazyNl, s => s.head? = some '\n'
  | CapKind.lazyAltOrigNlEnd, s =>
      isPrefixL ['O', 'R', 'I', 'G'] s || s.head? = some '\n' || s.isEmpty
  | CapKind.nonNlPlus, _ => true
  | CapKind.greedyRestOptNl, _ => true

/-- Characters the whole match consumes after the capture ends (relevant only
for `finditer`-style resumption). -/
def stopConsumed : CapKind → List Char → Nat
  | CapKind.lazyLit t, _ => t.length
  | CapKind.lazyWsLit t, s => (s.length - (dropWs s).length) + t.length
  | CapKind.lazyNl, _ => 1
  | CapKind.lazyAltOrigNlEnd, _ => 0
  | CapKind.nonNlPlus, _ => 0
  | CapKind.greedyRestOptNl, _ => 0

/-- Shortest non-empty capture whose continuation satisfies `stopHolds`. -/
def lazyCapGo (k : CapKind) (acc : List Char) : List Char → Option (List Char × List Char)
  | [] => none
  | c :: rest =>
      if stopHolds k rest then some (acc ++ [c], rest)
      else lazyCapGo k (acc ++ [c]) rest

def capRun (k : CapKind) (s : List Char) : Option (List Char × List Char) :=
  match k with
  | CapKind.nonNlPlus =>
      let cap := s.takeWhile (fun c => c ≠ '\n')
      if cap.isEmpty then none else some (cap, s.drop cap.length)
  | CapKind.greedyRestOptNl =>
      if s.isEmpty then none else some (s, [])
  | _ =>
      match lazyCapGo k [] s with
      | some (cap, rest) => some (cap, rest.drop (stopConsumed k rest))
      | none => none

structure SPat where
  pre : List PTok
  cap : CapKind

/-- Try the whole pattern anchored at the head of `s`; returns
`(captured group, rest of input after the full match)`. -/
def matchWholeAt (p : SPat) (s : List Char) : Option (List Char × List Char) :=
  match matchToks p.pre s with
  | none => none
  | some r => capRun p.cap r

/-- `pattern.search(s)`: leftmost match, returning the captured group. -/
def searchAt (p : SPat) : List Char → Option (List Char)
  | [] => none
  | c :: rest =>
      match matchWholeAt p (c :: rest) with
      | some (cap, _) => some cap
      | none => searchAt p rest

def searchPat (p : SPat) (s : String) : Option String :=
  (searchAt p s.toList).map String.mk

/-- `pattern.findall(s)`: repeated leftmost matching, resuming after each
match's end.  Every source pattern consumes at least one character, so fuel
equal to the input length is exact. -/
def findAllAux (p : SPat) : Nat → List Char → List (List Char)
  | 0, _ => []
  | _, [] => []
  | fuel + 1, c :: rest =>
      match matchWholeAt p (c :: rest) with
      | some (cap, rem) => cap :: findAllAux p fuel rem
      | none => findAllAux p fuel rest

def findAllPat (p : SPat) (s : String) : List String :=
  (findAllAux p s.toList.length s.toList).map String.mk

def pL (s : String) : PTok := PTok.lit s.toList

/-! ### The source's compiled patterns -/

/-- `PATIENT\s*:(.+?)\s*PATIENT` -/
def patPatientName : SPat := ⟨[pL "PATIENT", PTok.ws, pL ":"], CapKind.lazyWsLit "PATIENT".toList⟩

/-- `PATIENT\s*ID\s*\#:(.+?)\s*CONTRACT\s*` -/
def patPatientId : SPat :=
  ⟨[pL "PATIENT", PTok.ws, pL "ID", PTok.ws, pL "#:"], CapKind.lazyWsLit "CONTRACT".toList⟩

/-- `REND\s*PROV\s*:(.+?)REND` -/
def patProviderName : SPat := ⟨[pL "REND", PTok.ws, pL "PROV", PTok.ws, pL ":"], CapKind.lazyLit "REND".toList⟩

/-- `PROV\s*ID\s*:(.+?)PROV` -/
def patProviderId : SPat := ⟨[pL "PROV", PTok.ws, pL "ID", PTok.ws, pL ":"], CapKind.lazyLit "PROV".toList⟩

/-- `PAT\s*CTRL\s*\#\s*:(.+?)CLM` -/
def patPatientCtrl : SPat :=
  ⟨[pL "PAT", PTok.ws, pL "CTRL", PTok.ws, pL "#", PTok.ws, pL ":"], CapKind.lazyLit "CLM".toList⟩

/-- `PROV\s*CTRL\s*NBR\s*:([^\n]+)` -/
def patProviderCtrl : SPat :=
  ⟨[pL "PROV", PTok.ws, pL "CTRL", PTok.ws, pL "NBR", PTok.ws, pL ":"], CapKind.nonNlPlus⟩

/-- `TOTAL\s*CHARGE\s*:(.+?)TOTAL` -/
def patCharge : SPat := ⟨[pL "TOTAL", PTok.ws, pL "CHARGE", PTok.ws, pL ":"], CapKind.lazyLit "TOTAL".toList⟩

/-- `TOTAL\s*PAYMENT\s*:(.+?)(?=ORIG|\n|$)` -/
def patPayment : SPat := ⟨[pL "TOTAL", PTok.ws, pL "PAYMENT", PTok.ws, pL ":"], CapKind.lazyAltOrigNlEnd⟩

/-- `PAYEE\s*ID\s*:(.+?)AUTH` -/
def patPayeeId : SPat := ⟨[pL "PAYEE", PTok.ws, pL "ID", PTok.ws, pL ":"], CapKind.lazyLit "AUTH".toList⟩

/-- `CLM\s*\#:(.+?)\n` — also recompiled locally in `get_first_block_section`
and `get_bottom_coordinate_by_next_claim`. -/
def clmPat : SPat := ⟨[pL "CLM", PTok.ws, pL "#:"], CapKind.lazyNl⟩

/-- `ORIG\s*REF\s*NBR\s*:(.+)\n?` — the greedy `(.+)` with `re.DOTALL`
captures the whole remainder of the string. -/
def origRefPat : SPat :=
  ⟨[pL "ORIG", PTok.ws, pL "REF", PTok.ws, pL "NBR", PTok.ws, pL ":"], CapKind.greedyRestOptNl⟩

/-- `CLAIM\s*STATUS\s*:(.+?)\n` -/
def patClaimStatus : SPat := ⟨[pL "CLAIM", PTok.ws, pL "STATUS", PTok.ws, pL ":"], CapKind.lazyNl⟩

/-- `PAYEE\s*:(.+?)NPI` -/
def patPayee : SPat := ⟨[pL "PAYEE", PTok.ws, pL ":"], CapKind.lazyLit "NPI".toList⟩

/-- `VENDOR\s*NBR\s*:(.+?)PROD` -/
def patVendor : SPat := ⟨[pL "VENDOR", PTok.ws, pL "NBR", PTok.ws, pL ":"], CapKind.lazyLit "PROD".toList⟩

/-- `PROD\s*DATE\s*:(.+?)CH` -/
def patPayDate : SPat := ⟨[pL "PROD", PTok.ws, pL "DATE", PTok.ws, pL ":"], CapKind.lazyLit "CH".toList⟩

/-- `CHECK\s*\/\s*EFT\s*NBR\s*:(.+?)CHK` -/
def patCheckEft : SPat :=
  ⟨[pL "CHECK", PTok.ws, pL "/", PTok.ws, pL "EFT", PTok.ws, pL "NBR", PTok.ws, pL ":"],
   CapKind.lazyLit "CHK".toList⟩

/-- `CHK\s*\/\s*EFT\s*DT\s*:(.+?)\n` -/
def patCheckEftDate : SPat :=
  ⟨[pL "CHK", PTok.ws, pL "/", PTok.ws, pL "EFT", PTok.ws, pL "DT", PTok.ws, pL ":"], CapKind.lazyNl⟩

def FIELD_EXTRACTION_PATTERNS : List (String × SPat) :=
  [("Patient Name", patPatientName), ("Patient ID", patPatientId),
   ("Provider Name", patProviderName), ("Provider ID", patProviderId),
   ("Patient CTRL", patPatientCtrl), ("Provider CTRL", patProviderCtrl),
   ("Charge", patCharge), ("Payment", patPayment), ("PAYEE ID", patPayeeId)]

def CLAIM_REFERENCE_PATTERNS : List (String × SPat) :=
  [("Claim Number", clmPat), ("Orig Ref Num", origRefPat)]

def HEADER_FIELD_PATTERNS : List (String × SPat) :=
  [("CLAIM STATUS", patClaimStatus), ("PAYEE", patPayee), ("VENDOR", patVendor),
   ("Pay Date", patPayDate), ("CHECK/EFT", patCheckEft), ("CHECK/EFT Date", patCheckEftDate)]

/-! ### The patient-tag pattern `\nPATIENT\s*:` -/

/-- Length of a match of `\nPATIENT\s*:` anchored at the head of `s`
(`none` if it does not match here). -/
def tagMatchLen (s : List Char) : Option Nat :=
  match s with
  | [] => none
  | c :: rest =>
      if c = '\n' then
        match stripPrefixL "PATIENT".toList rest with
        | none => none
        | some r1 =>
            match dropWs r1 with
            | [] => none
            | c2 :: _ =>
                if c2 = ':' then some (1 + 7 + (r1.length - (dropWs r1).length) + 1)
                else none
      else none

/-- Start offsets of the successive non-overlapping matches
(`patient_regex.finditer`). -/
def tagStartsAux : Nat → List Char → Nat → List Nat
  | 0, _, _ => []
  | _, [], _ => []
  | fuel + 1, c :: rest, pos =>
      match tagMatchLen (c :: rest) with
      | some len => pos :: tagStartsAux fuel ((c :: rest).drop len) (pos + len)
      | none => tagStartsAux fuel rest (pos + 1)

def tagStarts (s : String) : List Nat := tagStartsAux s.toList.length s.toList 0

/-- `patient_regex.search(content)` as a Boolean. -/
def tagSearchAux : List Char → Bool
  | [] => false
  | c :: rest => (tagMatchLen (c :: rest)).isSome || tagSearchAux rest

def tagSearchB (s : String) : Bool := tagSearchAux s.toList

/-- The tag text without its leading `\n`: does `PATIENT\s*:` occur at
offset `i`?  (Used to state claim C10.) -/
def bareTagOccursAt (l : List Char) (i : Nat) : Bool :=
  match stripPrefixL "PATIENT".toList (l.drop i) with
  | none => false
  | some r1 =>
      match dropWs r1 with
      | [] => false
      | c2 :: _ => if c2 = ':' then true else false

/-! ### The patient-response pattern `\n\s*PAT\s*RESP\s*:` -/

def respMatchHere (s : List Char) : Bool :=
  match s with
  | '\n' :: rest =>
      (Option.isSome (do
        let r1 ← stripPrefixL "PAT".toList (dropWs rest)
        let r2 ← stripPrefixL "RESP".toList (dropWs r1)
        match dropWs r2 with
        | ':' :: _ => some ()
        | _ => none))
  | _ => false

def respSearchAux : List Char → Bool
  | [] => false
  | c :: rest => respMatchHere (c :: rest) || respSearchAux rest

/-- `self.patient_response_regex.search(block_text, re.DOTALL)`: the source
passes `re.DOTALL` (whose numeric value is 16) as the `pos` argument of
`Pattern.search`, so matching only considers matches starting at character
offset 16 or later. -/
def respSearch16 (s : String) : Bool := respSearchAux (s.toList.drop 16)

/-! ### Block segmentation (`extract_patient_blocks_from_page`) -/

def sliceL (l : List Char) (a b : Nat) : List Char := (l.drop a).take (b - a)

def sliceStr (s : String) (a b : Nat) : String := String.mk (sliceL s.toList a b)

def sliceFromStr (s : String) (a : Nat) : String := String.mk (s.toList.drop a)

/-- The generator's loop: each span runs from the held start offset to the
next match's start; the final span runs to end of text; each span is
`lstrip("\n")`-ed. -/
def blocksGo (text : String) : Nat → List Nat → List String
  | start, [] => [lstripNl (sliceFromStr text start)]
  | start, m :: ms => lstripNl (sliceStr text start m) :: blocksGo text m ms

/-- The block texts yielded by `extract_patient_blocks_from_page` for one
page (the page/geometry bookkeeping is added by the iterator below). -/
def extract_patient_blocks_texts (text : String) : List String :=
  match tagStarts text with
  | [] => []
  | s0 :: rest => blocksGo text s0 rest

/-! ### Pages, rectangles, geometry -/

structure Rect where
  x0 : Int
  y0 : Int
  x1 : Int
  y1 : Int
deriving DecidableEq, Repr

/-- A page handle: the reading-order text plus the document-access
capabilities the core consumes (spatial literal search, optionally clipped,
clipped text extraction, the page's mediabox, `user_unit`, and the
right-most x-coordinate over its text blocks, `none` when the page has no
text blocks). -/
structure Page where
  text : String
  searchFor : String → List Rect
  searchForClip : String → Rect → List Rect
  clipText : Rect → String
  rect : Rect
  userUnit : Int
  blocksRightmost : Option Int

/-- `calculate_real_page_width`. -/
def calculate_real_page_width (page : Page) (margin : Int) : Int :=
  let width := page.rect.x1 * page.userUnit
  let width :=
    match page.blocksRightmost with
    | some r => max width r
    | none => width
  width + margin

/-- The `geometry_dict`: each key is present or absent exactly as in the
Python dict; looking up an absent key is a `KeyError`. -/
structure GeometryDict where
  dos_x0 : Option Int
  dos_x1 : Option Int
  dos_y1 : Option Int
  adj_x0 : Option Int
  adj_x1 : Option Int
  mod_x0 : Option Int
  mod_x1 : Option Int
deriving DecidableEq, Repr

def emptyGeo : GeometryDict := ⟨none, none, none, none, none, none, none⟩

/-- Python truthiness of the dict (`if geometry_dict:`). -/
def geoNonempty (g : GeometryDict) : Bool :=
  g.dos_x0.isSome || g.dos_x1.isSome || g.dos_y1.isSome ||
  g.adj_x0.isSome || g.adj_x1.isSome || g.mod_x0.isSome || g.mod_x1.isSome

/-- `extract_page_geometry_coordinates`: each landmark group is filled from
the first search hit for its marker string, with the source's fixed
paddings. -/
def extract_page_geometry_coordinates (page : Page) : GeometryDict :=
  let dosG : Option Rect := (page.searchFor " DOS ").head?
  let adjG : Option Rect := (page.searchFor "ADJ/PROD").head?
  let modG : Option Rect := (page.searchFor " MOD ").head?
  ⟨dosG.map (fun r => r.x0 - 30), dosG.map (fun r => r.x1 + 30), dosG.map (fun r => r.y1),
   adjG.map (fun r => r.x0 - 2), adjG.map (fun r => r.x1 + 10),
   modG.map (fun r => r.x0 - 20), modG.map (fun r => r.x1 + 20)⟩

/-! ### Python dicts of strings -/

abbrev Dict := List (String × String)

/-- `d[k] = v`: overwrite in place, or append a new key. -/
def dset : Dict → String → String → Dict
  | [], k, v => [(k, v)]
  | (k', v') :: rest, k, v =>
      if k' = k then (k, v) :: rest else (k', v') :: dset rest k v

def dget? : Dict → String → Option String
  | [], _ => none
  | (k', v') :: rest, k => if k' = k then some v' else dget? rest k

def dkeys (d : Dict) : List String := d.map Prod.fst

/-- `d.update(u)`. -/
def dictUpdate (d upd : Dict) : Dict := upd.foldl (fun a kv => dset a kv.1 kv.2) d

/-! ### Spatial extraction -/

/-- The strip / skip-empty / first-seen-dedupe loop shared by the DOS and
multi-page extractors; `acc` plays the role of both `seen_values` and
`ordered_values` (they always hold the same elements). -/
def addLines (acc : List String) (text : String) : List String :=
  (pySplitlines text).foldl
    (fun a line =>
      let l := pyStrip line
      if l ≠ "" ∧ l ∉ a then a ++ [l] else a) acc

/-- `extract_patient_dates_of_service` (single-page). -/
def extract_patient_dates_of_service (page : Page) (patientRect : Rect)
    (g : GeometryDict) : Option String := do
  let dx0 ← g.dos_x0
  let dx1 ← g.dos_x1
  let ordered := addLines [] (page.clipText ⟨dx0, patientRect.y0, dx1 - 35, patientRect.y1⟩)
  pure (if ordered.isEmpty then "" else String.intercalate "," ordered)

/-- `extract_patient_service_codes` (single-page; the source collects into a
`set` and joins `list(set)` — set iteration order modelled as insertion
order). -/
def extract_patient_service_codes (page : Page) (patientRect : Rect)
    (g : GeometryDict) : Option String := do
  let a0 ← g.adj_x0
  let a1 ← g.adj_x1
  let vals :=
    (pySplitlines (page.clipText ⟨a0, patientRect.y0, a1, patientRect.y1⟩)).foldl
      (fun a line =>
        let l := pyStrip line
        if l ≠ "" ∧ l ∉ a then a ++ [l] else a) []
  pure (String.intercalate "," vals)

/-- `extract_patient_modifiers` (single-page; set modelled as for service
codes). -/
def extract_patient_modifiers (page : Page) (patientRect : Rect)
    (g : GeometryDict) : Option String := do
  let m0 ← g.mod_x0
  let m1 ← g.mod_x1
  let vals :=
    (pySplitlines (page.clipText ⟨m0, patientRect.y0, m1, patientRect.y1⟩)).foldl
      (fun a line =>
        let l := pyStrip line
        if l ≠ "" ∧ l ∉ a then a ++ [l] else a) []
  pure (String.intercalate "," vals)

/-- Shared body of the three `..._from_multiple_pages` extractors, after the
column bounds have been looked up.  The starred unpacking
`first, *middle, last = crop_rectangles_list` raises `ValueError` on a
single-element list (`none` here); the first and every middle region get
`y0 + 20`, the last region gets `y0 + 20` and `y1 - 20`. -/
def multiCore (x0 x1 : Int) : List (Page × Rect) → Option String
  | [] => some ""
  | [_] => none
  | (fp, fr) :: b :: l =>
      let rest := b :: l
      let mids := rest.dropLast
      let lastPR := rest.getLast (List.cons_ne_nil b l)
      let acc := addLines [] (fp.clipText ⟨x0, fr.y0 + 20, x1, fr.y1⟩)
      let acc :=
        mids.foldl (fun a pr => addLines a (pr.1.clipText ⟨x0, pr.2.y0 + 20, x1, pr.2.y1⟩)) acc
      let acc := addLines acc (lastPR.1.clipText ⟨x0, lastPR.2.y0 + 20, x1, lastPR.2.y1 - 20⟩)
      some (String.intercalate "," acc)

/-- `extract_dates_of_service_from_multiple_pages`. -/
def extract_dates_of_service_from_multiple_pages (crops : List (Page × Rect))
    (g : GeometryDict) : Option String :=
  match crops with
  | [] => some ""
  | cs => do
      let dx0 ← g.dos_x0
      let dx1 ← g.dos_x1
      multiCore dx0 (dx1 - 35) cs

/-- `extract_service_codes_from_multiple_pages`. -/
def extract_service_codes_from_multiple_pages (crops : List (Page × Rect))
    (g : GeometryDict) : Option String :=
  match crops with
  | [] => some ""
  | cs => do
      let a0 ← g.adj_x0
      let a1 ← g.adj_x1
      multiCore a0 a1 cs

/-- `extract_modifiers_from_multiple_pages`. -/
def extract_modifiers_from_multiple_pages (crops : List (Page × Rect))
    (g : GeometryDict) : Option String :=
  match crops with
  | [] => some ""
  | cs => do
      let m0 ← g.mod_x0
      let m1 ← g.mod_x1
      multiCore m0 m1 cs

/-! ### Crop-rectangle resolution for single-page blocks -/

/-- Python `list.index` (first occurrence). -/
def listIndex : List String → String → Option Nat
  | [], _ => none
  | a :: rest, x => if a = x then some 0 else (listIndex rest x).map (fun i => i + 1)

/-- `find_next_claim_number`. -/
def find_next_claim_number (l : List String) (cur : String) : Option String :=
  match listIndex l cur with
  | none => none
  | some i => if i = l.length - 1 then none else l.get? (i + 1)

/-- `get_bottom_coordinate_by_next_claim`. -/
def get_bottom_coordinate_by_next_claim (page : Page) (claimNumber : String) : Option Int :=
  let claims := findAllPat clmPat page.text
  if claims.length < 2 then none
  else
    match find_next_claim_number claims claimNumber with
    | none => none
    | some nxt =>
        match page.searchFor nxt with
        | [] => none
        | r :: _ => some (r.y0 - 20)

/-- `find_bottom_of_last_patient_response`: the lowest `PAT RESP:` hit (by
`y0`) inside the clip from the claim number's row to the page bottom. -/
def find_bottom_of_last_patient_response (page : Page) (claimNumber : String) : Option Int :=
  let w := calculate_real_page_width page 0
  match page.searchFor claimNumber with
  | [] => none
  | ch :: _ =>
      match page.searchForClip "PAT RESP:" ⟨0, ch.y0, w, page.rect.y1⟩ with
      | [] => none
      | h :: t => some (t.foldl (fun m r => max m r.y0) h.y0)

/-- Python `a or b` on optional integers: `0` is falsy, so a zero value of
`a` also falls through to `b`. -/
def pyOrInt (a b : Option Int) : Option Int :=
  match a with
  | some v => if v = 0 then b else some v
  | none => b

/-- `create_claim_block_crop_rectangle`: top is the claim hit's bottom plus
30; the bottom bound is the original-reference hit's top, else (Python `or`)
the next-claim bound, else the lowest patient-response bound; unresolved or
non-positive-height rectangles yield `None`. -/
def create_claim_block_crop_rectangle (page : Page) (claimNumber origRef : String) :
    Option Rect :=
  match page.searchFor claimNumber with
  | [] => none
  | ch :: _ =>
      match (match page.searchFor origRef with
             | rh :: _ => some rh.y0
             | [] =>
                 pyOrInt (get_bottom_coordinate_by_next_claim page claimNumber)
                   (find_bottom_of_last_patient_response page claimNumber)) with
      | none => none
      | some b =>
          if b ≤ ch.y1 + 30 then none
          else some ⟨0, ch.y1 + 30, calculate_real_page_width page 0, b⟩

/-- `get_first_block_section`: crop from just below the page's last claim
number down to the page bottom. -/
def get_first_block_section (page : Page) : Option (Page × Rect) :=
  let claims := findAllPat clmPat page.text
  let w := calculate_real_page_width page 0
  match claims.getLast? with
  | none => none
  | some claimNumber =>
      match page.searchFor claimNumber with
      | [] => none
      | r :: _ => some (page, ⟨0, r.y1 + 10, w, page.rect.y1⟩)

/-! ### Continuation stitching (`get_remaining_patient_block_content`) -/

/-- Clip, collapse dash runs, strip. -/
def cropStripped (p : Page) (r : Rect) : String :=
  pyStrip (String.mk (collapseDashesAux (p.clipText r).toList))

/-- The stitcher's loop over the pages after the block's origin page: a page
with a `PATIENT:` hit contributes a region bounded below by that hit and
stops the walk; a page without one contributes a region down to the page
height and the walk continues; the upper bound is the first `CLAIM STATUS`
hit's bottom, or the fixed offset 63. -/
def remainAux : List Page → List (Page × Rect) × String
  | [] => ([], "")
  | p :: ps =>
      let w := calculate_real_page_width p 0
      match p.searchFor "PATIENT:" with
      | pr :: _ =>
          let rect : Rect :=
            match p.searchFor "CLAIM STATUS" with
            | cr :: _ => ⟨0, cr.y1, w, pr.y0⟩
            | [] => ⟨0, 63, w, pr.y0⟩
          ([(p, rect)], "\n" ++ cropStripped p rect)
      | [] =>
          let rect : Rect :=
            match p.searchFor "CLAIM STATUS" with
            | cr :: _ => ⟨0, cr.y1, w, p.rect.y1 - p.rect.y0⟩
            | [] => ⟨0, 63, w, p.rect.y1 - p.rect.y0⟩
          let rec' := remainAux ps
          ((p, rect) :: rec'.1, ("\n" ++ cropStripped p rect) ++ rec'.2)

/-- `get_remaining_patient_block_content`: the loop starts at
`current_page_number + 1` and runs to the end of the document. -/
def get_remaining_patient_block_content (doc : List Page) (n : Nat) :
    List (Page × Rect) × String :=
  remainAux (doc.drop (n + 1))

/-! ### Record assembly (`process_individual_patient_block`) -/

/-- The loop `for column, pattern in ...: if match: data[column] = strip`
shared by `extract_header_field_information` and the tag-based field loop. -/
def applyPatterns (pats : List (String × SPat)) (t : String) (d : Dict) : Dict :=
  pats.foldl
    (fun a cp =>
      match searchPat cp.2 t with
      | some v => dset a cp.1 (pyStrip v)
      | none => a) d

/-- The claim-reference loop: `data[column] = strip(match) if match else ''`. -/
def applyClaimRefPatterns (d : Dict) (t : String) : Dict :=
  CLAIM_REFERENCE_PATTERNS.foldl
    (fun a cp => dset a cp.1 (((searchPat cp.2 t).map pyStrip).getD "")) d

/-- `extract_header_field_information`. -/
def extract_header_field_information (pageText : String) : Dict :=
  applyPatterns HEADER_FIELD_PATTERNS pageText
    (HEADER_FIELD_PATTERNS.map (fun cp => (cp.1, "")))

/-- `base_data = {column: "" for column in FIELD_EXTRACTION_PATTERNS}`. -/
def base_data0 : Dict := FIELD_EXTRACTION_PATTERNS.map (fun cp => (cp.1, ""))

/-- The tuple yielded by `extract_patient_blocks_from_page`. -/
structure BlockTuple where
  blockText : String
  doc : List Page
  pageNumber : Nat
  pageText : String
  geo : GeometryDict
  page : Page

/-- `crop_rectangles_list` before the stitcher's contribution: the origin
page's first block section, when it resolves. -/
def firstSectionList (page : Page) : List (Page × Rect) :=
  match get_first_block_section page with
  | some pr => [pr]
  | none => []

/-- The full `crop_rectangles_list` of the multi-page branch. -/
def multiCrops (bt : BlockTuple) : List (Page × Rect) :=
  firstSectionList bt.page ++ (get_remaining_patient_block_content bt.doc bt.pageNumber).1

/-- `block_text += '\n' + remaining_block_text`. -/
def extendedText (bt : BlockTuple) : String :=
  bt.blockText ++ "\n" ++ (get_remaining_patient_block_content bt.doc bt.pageNumber).2

/-- The multi-page (no closing marker) branch of
`process_individual_patient_block`: collect crop regions, extend the block
text, run the claim-reference patterns on the extended text, then the three
multi-page extractors (the `dset`s commute with the later extractor calls,
which never read the dict).  Returns the field dict so far and the extended
block text. -/
def processMulti (bt : BlockTuple) : Option (Dict × String) := do
  let dos ← extract_dates_of_service_from_multiple_pages (multiCrops bt) bt.geo
  let svc ← extract_service_codes_from_multiple_pages (multiCrops bt) bt.geo
  let mods ← extract_modifiers_from_multiple_pages (multiCrops bt) bt.geo
  pure (dset (dset (dset (applyClaimRefPatterns base_data0 (extendedText bt))
    "Date Of Service" dos) "Service Code" svc) "Modifier" mods, extendedText bt)

/-- The single-page (closing marker present) branch of
`process_individual_patient_block`: claim-reference patterns on the original
block text, then the crop rectangle; when it resolves the three single-page
extractors run, otherwise only a diagnostic is printed and the three keys
are never assigned. -/
def processSingle (bt : BlockTuple) : Option (Dict × String) := do
  let cn ← dget? (applyClaimRefPatterns base_data0 bt.blockText) "Claim Number"
  let orn ← dget? (applyClaimRefPatterns base_data0 bt.blockText) "Orig Ref Num"
  match create_claim_block_crop_rectangle bt.page cn orn with
  | some rect => do
      let dos ← extract_patient_dates_of_service bt.page rect bt.geo
      let svc ← extract_patient_service_codes bt.page rect bt.geo
      let mods ← extract_patient_modifiers bt.page rect bt.geo
      pure (dset (dset (dset (applyClaimRefPatterns base_data0 bt.blockText)
        "Date Of Service" dos) "Service Code" svc) "Modifier" mods, bt.blockText)
  | none => pure (applyClaimRefPatterns base_data0 bt.blockText, bt.blockText)

/-- `process_individual_patient_block`: branch on the `PAT RESP` search
(which starts at offset 16, see `respSearch16`), then apply the tag-based
field patterns to the (possibly extended) block text, extract the page-level
header fields, and merge. -/
def process_individual_patient_block (bt : BlockTuple) : Option (List Dict) := do
  let st ← if respSearch16 bt.blockText = false then processMulti bt else processSingle bt
  pure [dictUpdate (applyPatterns FIELD_EXTRACTION_PATTERNS st.2 st.1)
      (extract_header_field_information bt.pageText)]

/-! ### The document iterator (`iterate_all_patient_blocks`) -/

def blocksOfPage (doc : List Page) (p : Page) (n : Nat) (g : GeometryDict) :
    List BlockTuple :=
  (extract_patient_blocks_texts p.text).map (fun t => ⟨t, doc, n, p.text, g, p⟩)

/-- The per-page loop: while no non-empty geometry profile has been
extracted, a page whose text contains a patient tag recomputes
`geometry_dict`; once the dict is non-empty it is frozen
(`geometry_extracted = True`). -/
def iterGo (doc : List Page) : List Page → Nat → GeometryDict → Bool → List BlockTuple
  | [], _, _, _ => []
  | p :: ps, n, g, extracted =>
      let st :=
        if extracted = false ∧ tagSearchB p.text = true then
          let g2 := extract_page_geometry_coordinates p
          (g2, geoNonempty g2)
        else (g, extracted)
      blocksOfPage doc p n st.1 ++ iterGo doc ps (n + 1) st.1 st.2

def iterate_blocks (pages : List Page) : List BlockTuple :=
  iterGo pages pages 0 emptyGeo false

/-- How the run gets at its document: the path does not exist
(`os.path.exists` fails — the source prints a message and yields nothing),
`fitz.open` raises (propagates), or the document opens as a page list. -/
inductive DocSource
  | missing
  | openFail
  | ok (pages : List Page)

def iterate_all_patient_blocks : DocSource → Option (List BlockTuple)
  | DocSource.missing => some []
  | DocSource.openFail => none
  | DocSource.ok pages => some (iterate_blocks pages)

/-! ### The pipeline (`process_pdf_and_create_dataframe`) -/

def EXPECTED_COLUMNS : List String :=
  FIELD_EXTRACTION_PATTERNS.map Prod.fst ++ CLAIM_REFERENCE_PATTERNS.map Prod.fst ++
    HEADER_FIELD_PATTERNS.map Prod.fst ++ ["Date Of Service", "Service Code", "Modifier"]

/-- The pandas DataFrame, as the data the core hands over: a column list and
the row dicts. -/
structure Frame where
  columns : List String
  rows : List Dict
deriving DecidableEq

/-- `process_pdf_and_create_dataframe`: accumulate the rows of every block;
with rows the columns are the first row's keys, otherwise the expected
column list. -/
def process_pdf_and_create_dataframe (src : DocSource) : Option Frame := do
  let blocks ← iterate_all_patient_blocks src
  let rows ← blocks.foldlM
    (fun acc bt => do
      let rs ← process_individual_patient_block bt
      pure (acc ++ rs)) ([] : List Dict)
  match rows with
  | [] => pure ⟨EXPECTED_COLUMNS, []⟩
  | r :: rs => pure ⟨dkeys r, r :: rs⟩

/-- The parser object's state: only `pdf_path` (and the compiled patterns,
which are constants) — no method assigns an instance or class attribute
after `__init__`, so running a method returns the instance unchanged. -/
structure ParserInstance where
  pdf_path : String

def run_processing (parser : ParserInstance) (src : DocSource) :
    ParserInstance × Option Frame :=
  (parser, process_pdf_and_create_dataframe src)

/-! ### Specification-side definitions

These restate, in the spec's vocabulary, the behaviours the claims assert;
the theorems below compare them with the source translations above. -/

/-- Spec side of C8: the spans are the slices between consecutive tag start
offsets (the last one running to end of text), each with leading newlines
trimmed. -/
def blockSpansSpec (text : String) : List String :=
  let st := tagStarts text
  (st.zip (st.tail ++ [text.toList.length])).map (fun ab => lstripNl (sliceStr text ab.1 ab.2))

/-- Spec side of C7: the stitcher's page visits stop at (and include) the
first page carrying the starting landmark `PATIENT:`, or cover all remaining
pages when none does. -/
def hasPatientLandmark (p : Page) : Bool := !(p.searchFor "PATIENT:").isEmpty

def stitchStopCount : List Page → Nat
  | [] => 0
  | p :: ps => if hasPatientLandmark p then 1 else stitchStopCount ps + 1

/-- The distinct stripped non-empty lines of a clipped text, in order. -/
def cleanLines (text : String) : List String :=
  ((pySplitlines text).map pyStrip).filter (fun l => l ≠ "")

/-- First-seen-order deduplication, continuing from `acc`. -/
def dedupeInto (acc : List String) (ls : List String) : List String :=
  ls.foldl (fun a l => if l ∉ a then a ++ [l] else a) acc

/-- Spec side of C4 as amended: every region's top is nudged down by 20, and
the last region's bottom is additionally nudged up by 20. -/
def multiAmendedRects (x0 x1 : Int) : List (Page × Rect) → List (Page × Rect)
  | [] => []
  | [z] => [(z.1, ⟨x0, z.2.y0 + 20, x1, z.2.y1 - 20⟩)]
  | pr :: rest => (pr.1, ⟨x0, pr.2.y0 + 20, x1, pr.2.y1⟩) :: multiAmendedRects x0 x1 rest

def multiAmendedSpec (x0 x1 : Int) (crops : List (Page × Rect)) : String :=
  String.intercalate ","
    (dedupeInto [] (((multiAmendedRects x0 x1 crops).map
      (fun pr => cleanLines (pr.1.clipText pr.2))).flatten))

/-- Spec side of C4 as originally stated: only the FIRST region's top is
nudged down and only the LAST region's bottom is nudged up; all other region
edges are unadjusted. -/
def multiClaimRects (x0 x1 : Int) (crops : List (Page × Rect)) : List (Page × Rect) :=
  crops.enum.map (fun ipr =>
    (ipr.2.1,
     ⟨x0,
      if ipr.1 = 0 then ipr.2.2.y0 + 20 else ipr.2.2.y0,
      x1,
      if ipr.1 + 1 = crops.length then ipr.2.2.y1 - 20 else ipr.2.2.y1⟩))

def multiClaimSpec (x0 x1 : Int) (crops : List (Page × Rect)) : String :=
  String.intercalate ","
    (dedupeInto [] (((multiClaimRects x0 x1 crops).map
      (fun pr => cleanLines (pr.1.clipText pr.2))).flatten))

/-- Spec side of C5's bottom-bound priority, amended with Python's `or`
semantics: (1) the first hit for the original-reference string; else (2) the
next claim number's row minus the fixed margin, provided that offset is
non-zero; else (3) the lowest `PAT RESP:` occurrence at or below the claim
number's row. -/
def bottomBoundSpec (page : Page) (claimNumber origRef : String) : Option Int :=
  match page.searchFor origRef with
  | rh :: _ => some rh.y0
  | [] =>
      match get_bottom_coordinate_by_next_claim page claimNumber with
      | some v => if v ≠ 0 then some v else find_bottom_of_last_patient_response page claimNumber
      | none => find_bottom_of_last_patient_response page claimNumber

/-- Spec side of C5's rectangle: resolved only when the claim number is
located and the bottom bound is strictly below the padded top bound. -/
def cropRectSpec (page : Page) (claimNumber origRef : String) : Option Rect :=
  match page.searchFor claimNumber with
  | [] => none
  | ch :: _ =>
      match bottomBoundSpec page claimNumber origRef with
      | none => none
      | some b =>
          if ch.y1 + 30 < b then some ⟨0, ch.y1 + 30, calculate_real_page_width page 0, b⟩
          else none

/-- A page qualifies for geometry calibration: its text carries a patient
tag and at least one landmark resolves. -/
def pageQualifies (p : Page) : Prop :=
  tagSearchB p.text = true ∧ geoNonempty (extract_page_geometry_coordinates p) = true

instance (p : Page) : Decidable (pageQualifies p) := by
  unfold pageQualifies
  infer_instance

/-- The 17 field keys that every emitted record carries. -/
def basicKeys : List String :=
  FIELD_EXTRACTION_PATTERNS.map Prod.fst ++ ["Claim Number", "Orig Ref Num"] ++
    HEADER_FIELD_PATTERNS.map Prod.fst

def geoKeys : List String := ["Date Of Service", "Service Code", "Modifier"]

/-- The claim number / original-reference values the single-page branch
feeds to `create_claim_block_crop_rectangle`. -/
def claimNumberOf (t : String) : String := ((searchPat clmPat t).map pyStrip).getD ""

def origRefOf (t : String) : String := ((searchPat origRefPat t).map pyStrip).getD ""

/-- The single-page branch skips spatial extraction: the closing marker was
found and the crop rectangle did not resolve. -/
def singleSkip (bt : BlockTuple) : Prop :=
  respSearch16 bt.blockText = true ∧
    create_claim_block_crop_rectangle bt.page (claimNumberOf bt.blockText)
      (origRefOf bt.blockText) = none

instance (bt : BlockTuple) : Decidable (singleSkip bt) := by
  unfold singleSkip
  infer_instance

/-! ### Concrete inputs used by the counterexamples and witnesses -/

/-- A page whose only locatable string is the claim number `77`, with a
`PAT RESP:` hit below it, and none of the three geometry landmarks: the
claim-block crop rectangle resolves although the geometry profile is empty. -/
def pageC1 : Page :=
  ⟨"HDR\nPATIENT : A B WX\nPAT RESP: 0.00\nCLM #:77\n",
   fun s => if s = "77" then [⟨10, 100, 30, 110⟩] else [],
   fun s _ => if s = "PAT RESP:" then [⟨0, 300, 50, 310⟩] else [],
   fun _ => "", ⟨0, 0, 612, 792⟩, 1, none⟩

/-- A page on which every spatial search misses. -/
def blankPage : Page :=
  ⟨"", fun _ => [], fun _ _ => [], fun _ => "", ⟨0, 0, 612, 792⟩, 1, none⟩

/-- Single-page block with a closing marker but no locatable claim text. -/
def btC2c : BlockTuple :=
  ⟨"PATIENT : A B WX\nPAT RESP: 0.00\n", [blankPage], 0, "", emptyGeo, blankPage⟩

/-- Block taking the multi-page branch with no resolvable crop regions. -/
def btC2w : BlockTuple := ⟨"PATIENT : X", [blankPage], 0, "", emptyGeo, blankPage⟩

def recC2w : Dict := ((process_individual_patient_block btC2w).getD []).headD []

/-- A page locating the claim number `99` but nothing below it: neither an
original reference, a next claim number, nor a `PAT RESP:` hit. -/
def pageC5c : Page :=
  ⟨"", fun s => if s = "99" then [⟨10, 100, 30, 110⟩] else [],
   fun _ _ => [], fun _ => "", ⟨0, 0, 612, 792⟩, 1, none⟩

/-- Single-page block on `pageC5c`: the bottom bound never resolves. -/
def btC5c : BlockTuple :=
  ⟨"PATIENT : E F GH\nPAT RESP: 9.99\nCLM #:99\n", [pageC5c], 0, "", emptyGeo, pageC5c⟩

/-- Single-page block whose claim number `88` is not locatable at all. -/
def btC5w : BlockTuple :=
  ⟨"PATIENT : C D EF\nPAT RESP: 1.23\nCLM #:88\n", [blankPage], 0, "", emptyGeo, blankPage⟩

/-- A page for the C4 counterexample: the clipped text depends on whether
the last region's top edge was nudged down by 20 or left unadjusted. -/
def pageC4 : Page :=
  ⟨"", fun _ => [], fun _ _ => [],
   fun r =>
     if r = ⟨5, 120, 60, 180⟩ then "B"
     else if r = ⟨5, 100, 60, 180⟩ then "A\nB" else "",
   ⟨0, 0, 612, 792⟩, 1, none⟩

/-- A profile carrying all six column bounds (dos `5..95`, adj `5..60`,
mod `5..60`). -/
def geoC4 : GeometryDict := ⟨some 5, some 95, some 0, some 5, some 60, some 5, some 60⟩

def cropsC4a : List (Page × Rect) := [(pageC4, ⟨0, 80, 612, 300⟩)]

def cropsC4b : List (Page × Rect) := [(pageC4, ⟨0, 0, 612, 50⟩), (pageC4, ⟨0, 100, 612, 200⟩)]

/-- First page of the C6 witness document: patient tag plus a ` DOS `
landmark at `x0 = 100`. -/
def witPage1 : Page :=
  ⟨"x\nPATIENT : A\n", fun s => if s = " DOS " then [⟨100, 50, 130, 60⟩] else [],
   fun _ _ => [], fun _ => "", ⟨0, 0, 612, 792⟩, 1, none⟩

/-- Second page of the C6 witness document: patient tag plus a ` DOS `
landmark at a different position, `x0 = 200`. -/
def witPage2 : Page :=
  ⟨"y\nPATIENT : B\n", fun s => if s = " DOS " then [⟨200, 50, 230, 60⟩] else [],
   fun _ _ => [], fun _ => "", ⟨0, 0, 612, 792⟩, 1, none⟩

def witGeo : GeometryDict := extract_page_geometry_coordinates witPage1

def witBt1 : BlockTuple :=
  ⟨"PATIENT : A\n", [witPage1, witPage2], 0, witPage1.text, witGeo, witPage1⟩

def witBt2 : BlockTuple :=
  ⟨"PATIENT : B\n", [witPage1, witPage2], 1, witPage2.text, witGeo, witPage2⟩

/-! ### Dict lemmas -/

theorem dget?_dset_self (d : Dict) (k v : String) : dget? (dset d k v) k = some v := by
  induction d with
  | nil => simp [dset, dget?]
  | cons kv rest ih =>
    obtain ⟨k', v'⟩ := kv
    by_cases h : k' = k
    · simp [dset, dget?, h]
    · simp [dset, dget?, h, ih]

theorem dget?_dset_ne (d : Dict) (k v k' : String) (h : k' ≠ k) :
    dget? (dset d k v) k' = dget? d k' := by
  induction d with
  | nil => simp [dset, dget?, Ne.symm h]
  | cons kv rest ih =>
    obtain ⟨k₀, v₀⟩ := kv
    by_cases h₀ : k₀ = k
    · subst h₀
      simp [dset, dget?, h, Ne.symm h]
    · by_cases h₁ : k₀ = k'
      · simp [dset, dget?, h₀, h₁, h]
      · simp [dset, dget?, h₀, h₁, h, ih]

theorem mem_dkeys_dset (d : Dict) (k v a : String) :
    a ∈ dkeys (dset d k v) ↔ a = k ∨ a ∈ dkeys d := by
  induction d with
  | nil => simp [dset, dkeys]
  | cons kv rest ih =>
    obtain ⟨k₀, v₀⟩ := kv
    by_cases h₀ : k₀ = k
    · subst h₀
      rw [show dset ((k₀, v₀) :: rest) k₀ v = (k₀, v) :: rest from by simp [dset]]
      simp only [dkeys, List.map_cons, List.mem_cons]
      tauto
    · rw [show dset ((k₀, v₀) :: rest) k v = (k₀, v₀) :: dset rest k v from by simp [dset, h₀]]
      simp only [dkeys, List.map_cons, List.mem_cons]
      have ih' : a ∈ List.map Prod.fst (dset rest k v) ↔ a = k ∨ a ∈ List.map Prod.fst rest := ih
      rw [ih']
      tauto

theorem mem_dkeys_dset_of_mem (d : Dict) (k v a : String) (h : a ∈ dkeys d) :
    a ∈ dkeys (dset d k v) := (mem_dkeys_dset d k v a).mpr (Or.inr h)

theorem mem_dkeys_dset_self (d : Dict) (k v : String) : k ∈ dkeys (dset d k v) :=
  (mem_dkeys_dset d k v k).mpr (Or.inl rfl)

theorem mem_dkeys_applyPatterns (pats : List (String × SPat)) (t : String) (d : Dict)
    (a : String) :
    a ∈ dkeys (applyPatterns pats t d) ↔
      a ∈ dkeys d ∨ (a ∈ pats.map Prod.fst ∧ a ∈ dkeys (applyPatterns pats t d)) := by
  constructor
  · intro h
    by_cases hd : a ∈ dkeys d
    · exact Or.inl hd
    · refine Or.inr ⟨?_, h⟩
      induction pats generalizing d with
      | nil => simp [applyPatterns] at h; exact absurd h hd
      | cons cp rest ih =>
        simp only [applyPatterns, List.foldl_cons] at h
        simp only [List.map_cons, List.mem_cons]
        rcases hsp : searchPat cp.2 t with _ | v
        · simp only [hsp] at h
          by_cases hh : a = cp.1
          · exact Or.inl hh
          · exact Or.inr (ih d (by simpa [applyPatterns] using h) hd)
        · simp only [hsp] at h
          by_cases hh : a = cp.1
          · exact Or.inl hh
          · refine Or.inr (ih (dset d cp.1 (pyStrip v)) (by simpa [applyPatterns] using h) ?_)
            intro hmem
            rcases (mem_dkeys_dset d cp.1 (pyStrip v) a).mp hmem with h1 | h2
            · exact hh h1
            · exact hd h2
  · intro h
    rcases h with h | ⟨_, h⟩
    · induction pats generalizing d with
      | nil => simpa [applyPatterns] using h
      | cons cp rest ih =>
        simp only [applyPatterns, List.foldl_cons]
        rcases hsp : searchPat cp.2 t with _ | v
        · exact ih d h
        · exact ih (dset d cp.1 (pyStrip v)) (mem_dkeys_dset_of_mem _ _ _ _ h)
    · exact h

theorem mem_dkeys_applyPatterns_of_mem (pats : List (String × SPat)) (t : String)
    (d : Dict) (a : String) (h : a ∈ dkeys d) : a ∈ dkeys (applyPatterns pats t d) :=
  (mem_dkeys_applyPatterns pats t d a).mpr (Or.inl h)

theorem mem_dkeys_applyPatterns_sub (pats : List (String × SPat)) (t : String)
    (d : Dict) (a : String) (h : a ∈ dkeys (applyPatterns pats t d)) :
    a ∈ dkeys d ∨ a ∈ pats.map Prod.fst := by
  rcases (mem_dkeys_applyPatterns pats t d a).mp h with h1 | ⟨h2, _⟩
  · exact Or.inl h1
  · exact Or.inr h2

theorem mem_dkeys_dictUpdate (d u : Dict) (a : String) :
    a ∈ dkeys (dictUpdate d u) ↔ a ∈ dkeys d ∨ a ∈ dkeys u := by
  induction u generalizing d with
  | nil => simp [dictUpdate, dkeys]
  | cons kv rest ih =>
    have step : dictUpdate d (kv :: rest) = dictUpdate (dset d kv.1 kv.2) rest := rfl
    rw [step, ih, mem_dkeys_dset]
    simp only [dkeys, List.map_cons, List.mem_cons]
    tauto

/-! ### Deduplication lemmas -/

theorem dedupeInto_append (acc l₁ l₂ : List String) :
    dedupeInto acc (l₁ ++ l₂) = dedupeInto (dedupeInto acc l₁) l₂ := by
  simp [dedupeInto, List.foldl_append]

theorem addLines_eq_dedupe (acc : List String) (t : String) :
    addLines acc t = dedupeInto acc (cleanLines t) := by
  unfold addLines cleanLines
  generalize pySplitlines t = lines
  induction lines generalizing acc with
  | nil => rfl
  | cons line ls ih =>
    simp only [List.foldl_cons, List.map_cons]
    by_cases hl : pyStrip line = ""
    · rw [if_neg (by simp [hl])]
      rw [List.filter_cons_of_neg (by simp [hl])]
      exact ih acc
    · rw [List.filter_cons_of_pos (by simp [hl])]
      by_cases hm : pyStrip line ∈ acc
      · rw [if_neg (by simp [hm])]
        have : dedupeInto acc (pyStrip line :: List.filter (fun l => decide (l ≠ ""))
            (List.map pyStrip ls)) = dedupeInto acc (List.filter (fun l => decide (l ≠ ""))
            (List.map pyStrip ls)) := by
          simp [dedupeInto, hm]
        rw [this]
        exact ih acc
      · rw [if_pos ⟨hl, hm⟩]
        have : dedupeInto acc (pyStrip line :: List.filter (fun l => decide (l ≠ ""))
            (List.map pyStrip ls)) = dedupeInto (acc ++ [pyStrip line])
            (List.filter (fun l => decide (l ≠ "")) (List.map pyStrip ls)) := by
          simp [dedupeInto, hm]
        rw [this]
        exact ih (acc ++ [pyStrip line])

theorem foldl_addLines_eq_dedupe (mids : List (Page × Rect)) (x0 x1 : Int)
    (acc : List String) :
    mids.foldl (fun a pr => addLines a (pr.1.clipText ⟨x0, pr.2.y0 + 20, x1, pr.2.y1⟩)) acc =
      dedupeInto acc ((mids.map
        (fun pr => cleanLines (pr.1.clipText ⟨x0, pr.2.y0 + 20, x1, pr.2.y1⟩))).flatten) := by
  induction mids generalizing acc with
  | nil => rfl
  | cons m ms ih =>
    simp only [List.foldl_cons, List.map_cons, List.flatten_cons]
    rw [ih, addLines_eq_dedupe, dedupeInto_append]

/-- The last region of the amended-rectangle list. -/
theorem multiAmendedRects_append (x0 x1 : Int) (xs : List (Page × Rect)) (z : Page × Rect) :
    multiAmendedRects x0 x1 (xs ++ [z]) =
      xs.map (fun pr => (pr.1, (⟨x0, pr.2.y0 + 20, x1, pr.2.y1⟩ : Rect))) ++
        [(z.1, ⟨x0, z.2.y0 + 20, x1, z.2.y1 - 20⟩)] := by
  induction xs with
  | nil => rfl
  | cons x xs ih =>
    cases xs with
    | nil => rfl
    | cons y ys =>
      simp only [List.cons_append, multiAmendedRects, List.map_cons, List.append_eq] at *
      rw [ih]

/-- The three multi-page extractors share this computation once the bounds
resolve and the list has at least two regions. -/
theorem multiCore_eq_amended (x0 x1 : Int) (f b : Page × Rect) (l : List (Page × Rect)) :
    multiCore x0 x1 (f :: b :: l) = some (multiAmendedSpec x0 x1 (f :: b :: l)) := by
  obtain ⟨fp, fr⟩ := f
  have hne : (b :: l) ≠ [] := List.cons_ne_nil b l
  have hsplit : (b :: l).dropLast ++ [(b :: l).getLast hne] = b :: l :=
    List.dropLast_append_getLast hne
  show some _ = some _
  congr 1
  unfold multiAmendedSpec
  rw [addLines_eq_dedupe, foldl_addLines_eq_dedupe, addLines_eq_dedupe,
    ← dedupeInto_append, ← dedupeInto_append]
  congr 1
  have hrects : multiAmendedRects x0 x1 ((fp, fr) :: b :: l) =
      ((fp, fr) :: (b :: l).dropLast).map
          (fun pr => (pr.1, (⟨x0, pr.2.y0 + 20, x1, pr.2.y1⟩ : Rect))) ++
        [(((b :: l).getLast hne).1,
          ⟨x0, ((b :: l).getLast hne).2.y0 + 20, x1, ((b :: l).getLast hne).2.y1 - 20⟩)] := by
    conv_lhs => rw [show (fp, fr) :: b :: l = ((fp, fr) :: (b :: l).dropLast) ++
      [(b :: l).getLast hne] from by rw [List.cons_append, hsplit]]
    exact multiAmendedRects_append x0 x1 _ _
  rw [hrects]
  simp only [List.map_append, List.map_cons, List.map_map, List.map_nil,
    List.flatten_append, List.flatten_cons, List.flatten_nil, List.append_nil,
    List.append_assoc, Function.comp_def]

/-! ### Record-shape lemmas -/

theorem dkeys_constdict (pats : List (String × SPat)) :
    dkeys (pats.map (fun cp => (cp.1, ""))) = pats.map Prod.fst := by
  induction pats with
  | nil => rfl
  | cons cp rest ih =>
    simp only [List.map_cons, dkeys] at *
    rw [← ih]

theorem applyClaimRef_eq (d : Dict) (t : String) :
    applyClaimRefPatterns d t =
      dset (dset d "Claim Number" (claimNumberOf t)) "Orig Ref Num" (origRefOf t) := rfl

theorem dget?_claimref_cn (d : Dict) (t : String) :
    dget? (applyClaimRefPatterns d t) "Claim Number" = some (claimNumberOf t) := by
  rw [applyClaimRef_eq, dget?_dset_ne _ _ _ _ (by decide), dget?_dset_self]

theorem dget?_claimref_orn (d : Dict) (t : String) :
    dget? (applyClaimRefPatterns d t) "Orig Ref Num" = some (origRefOf t) := by
  rw [applyClaimRef_eq, dget?_dset_self]

/-- Inversion of the single-page branch. -/
theorem processSingle_inv (bt : BlockTuple) (st : Dict × String)
    (h : processSingle bt = some st) :
    st.2 = bt.blockText ∧
      ((create_claim_block_crop_rectangle bt.page (claimNumberOf bt.blockText)
          (origRefOf bt.blockText) = none ∧
        st.1 = applyClaimRefPatterns base_data0 bt.blockText) ∨
       (∃ rect dos svc mods,
          create_claim_block_crop_rectangle bt.page (claimNumberOf bt.blockText)
            (origRefOf bt.blockText) = some rect ∧
          st.1 = dset (dset (dset (applyClaimRefPatterns base_data0 bt.blockText)
            "Date Of Service" dos) "Service Code" svc) "Modifier" mods)) := by
  unfold processSingle at h
  simp only [Option.bind_eq_bind, Option.bind_eq_some] at h
  obtain ⟨cn, hcn, orn, horn, hrest⟩ := h
  rw [dget?_claimref_cn] at hcn
  rw [dget?_claimref_orn] at horn
  simp only [Option.some.injEq] at hcn horn
  subst hcn
  subst horn
  rcases hc : create_claim_block_crop_rectangle bt.page (claimNumberOf bt.blockText)
      (origRefOf bt.blockText) with _ | rect
  · rw [hc] at hrest
    simp only [Option.pure_def, Option.some.injEq] at hrest
    subst hrest
    exact ⟨rfl, Or.inl ⟨rfl, rfl⟩⟩
  · rw [hc] at hrest
    simp only [Option.bind_eq_bind, Option.bind_eq_some] at hrest
    obtain ⟨dos, hdos, svc, hsvc, mods, hmods, hp⟩ := hrest
    simp only [Option.pure_def, Option.some.injEq] at hp
    subst hp
    exact ⟨rfl, Or.inr ⟨rect, dos, svc, mods, rfl, rfl⟩⟩

/-- Inversion of the multi-page branch: on success the three geometry fields
were all assigned on top of the claim-reference dict built from the extended
text. -/
theorem processMulti_inv (bt : BlockTuple) (st : Dict × String)
    (h : processMulti bt = some st) :
    ∃ dos svc mods,
      st.1 = dset (dset (dset (applyClaimRefPatterns base_data0 st.2)
        "Date Of Service" dos) "Service Code" svc) "Modifier" mods := by
  unfold processMulti at h
  simp only [Option.bind_eq_bind, Option.bind_eq_some] at h
  obtain ⟨dos, hdos, svc, hsvc, mods, hmods, hp⟩ := h
  simp only [Option.pure_def, Option.some.injEq] at hp
  subst hp
  exact ⟨dos, svc, mods, rfl⟩

/-- Inversion of `process_individual_patient_block`. -/
theorem process_inv (bt : BlockTuple) (l : List Dict)
    (h : process_individual_patient_block bt = some l) :
    ∃ st, ((respSearch16 bt.blockText = false ∧ processMulti bt = some st) ∨
           (respSearch16 bt.blockText = true ∧ processSingle bt = some st)) ∧
      l = [dictUpdate (applyPatterns FIELD_EXTRACTION_PATTERNS st.2 st.1)
            (extract_header_field_information bt.pageText)] := by
  unfold process_individual_patient_block at h
  rcases hb : respSearch16 bt.blockText with _ | _
  · rw [hb, if_pos rfl] at h
    simp only [Option.bind_eq_bind, Option.bind_eq_some] at h
    obtain ⟨st, hst, hp⟩ := h
    simp only [Option.pure_def, Option.some.injEq] at hp
    exact ⟨st, Or.inl ⟨rfl, hst⟩, hp.symm⟩
  · rw [hb, if_neg (by simp)] at h
    simp only [Option.bind_eq_bind, Option.bind_eq_some] at h
    obtain ⟨st, hst, hp⟩ := h
    simp only [Option.pure_def, Option.some.injEq] at hp
    exact ⟨st, Or.inr ⟨rfl, hst⟩, hp.symm⟩

/-- Keys never introduced by the tag-based field loop or the header merge:
the geometry keys are absent from the final record when they were absent
from the branch dict. -/
theorem geo_key_not_in_final (k : String) (hk : k ∈ geoKeys) (d : Dict) (t2 pt : String)
    (hd : k ∉ dkeys d) :
    k ∉ dkeys (dictUpdate (applyPatterns FIELD_EXTRACTION_PATTERNS t2 d)
      (extract_header_field_information pt)) := by
  intro hmem
  rcases (mem_dkeys_dictUpdate _ _ _).mp hmem with h1 | h2
  · rcases mem_dkeys_applyPatterns_sub _ _ _ _ h1 with h3 | h4
    · exact hd h3
    · fin_cases hk <;> simp [FIELD_EXTRACTION_PATTERNS] at h4
  · rcases mem_dkeys_applyPatterns_sub _ _ _ _ h2 with h3 | h4
    · rw [dkeys_constdict] at h3
      fin_cases hk <;> simp [HEADER_FIELD_PATTERNS] at h3
    · fin_cases hk <;> simp [HEADER_FIELD_PATTERNS] at h4

/-- Keys carried into the final record from the branch dict or from the
header group. -/
theorem key_in_final (k : String) (d : Dict) (t2 pt : String)
    (hd : k ∈ dkeys d ∨ k ∈ HEADER_FIELD_PATTERNS.map Prod.fst) :
    k ∈ dkeys (dictUpdate (applyPatterns FIELD_EXTRACTION_PATTERNS t2 d)
      (extract_header_field_information pt)) := by
  rcases hd with h | h
  · exact (mem_dkeys_dictUpdate _ _ _).mpr
      (Or.inl (mem_dkeys_applyPatterns_of_mem _ _ _ _ h))
  · refine (mem_dkeys_dictUpdate _ _ _).mpr (Or.inr ?_)
    unfold extract_header_field_information
    refine mem_dkeys_applyPatterns_of_mem _ _ _ _ ?_
    rw [dkeys_constdict]
    exact h

/-! ### C5 lemmas: the bottom-bound priority -/

theorem bottomQ_eq_spec (page : Page) (cn orn : String) :
    (match page.searchFor orn with
     | rh :: _ => some rh.y0
     | [] =>
         pyOrInt (get_bottom_coordinate_by_next_claim page cn)
           (find_bottom_of_last_patient_response page cn)) = bottomBoundSpec page cn orn := by
  unfold bottomBoundSpec pyOrInt
  cases page.searchFor orn with
  | cons rh rest => rfl
  | nil =>
    cases get_bottom_coordinate_by_next_claim page cn with
    | none => rfl
    | some v =>
      by_cases hv : v = 0
      · simp [hv]
      · simp [hv]

theorem create_eq_cropRectSpec (page : Page) (cn orn : String) :
    create_claim_block_crop_rectangle page cn orn = cropRectSpec page cn orn := by
  unfold create_claim_block_crop_rectangle cropRectSpec
  cases page.searchFor cn with
  | nil => rfl
  | cons ch rest =>
    dsimp only
    rw [bottomQ_eq_spec]
    cases bottomBoundSpec page cn orn with
    | none => rfl
    | some b =>
      dsimp only
      by_cases hb : b ≤ ch.y1 + 30
      · rw [if_pos hb, if_neg (by omega)]
      · rw [if_neg hb, if_pos (by omega)]

/-! ### C7 lemmas: the stitcher's page visits -/

theorem remainAux_spec (ps : List Page) :
    (remainAux ps).1.map Prod.fst = ps.take (stitchStopCount ps) ∧
      (remainAux ps).1.length ≤ ps.length := by
  induction ps with
  | nil => simp [remainAux, stitchStopCount]
  | cons p ps ih =>
    rcases hsf : p.searchFor "PATIENT:" with _ | ⟨pr, prs⟩
    · have hpl : hasPatientLandmark p = false := by simp [hasPatientLandmark, hsf]
      simp only [remainAux, hsf]
      constructor
      · simp only [stitchStopCount, hpl, Bool.false_eq_true, if_false, List.take_succ_cons,
          List.map_cons, List.cons.injEq, true_and]
        exact ih.1
      · simp only [List.length_cons]
        have := ih.2
        omega
    · have hpl : hasPatientLandmark p = true := by simp [hasPatientLandmark, hsf]
      simp only [remainAux, hsf]
      constructor
      · simp [stitchStopCount, hpl]
      · simp

/-! ### C6 lemmas: the geometry profile is frozen once extracted -/

theorem mem_blocksOfPage (doc : List Page) (p : Page) (n : Nat) (g : GeometryDict)
    (bt : BlockTuple) (h : bt ∈ blocksOfPage doc p n g) :
    bt.pageNumber = n ∧ bt.geo = g := by
  obtain ⟨t, _, rfl⟩ := List.mem_map.mp h
  exact ⟨rfl, rfl⟩

theorem iterGo_frozen (doc : List Page) (ps : List Page) (n : Nat) (g : GeometryDict) :
    ∀ bt ∈ iterGo doc ps n g true, bt.geo = g := by
  induction ps generalizing n with
  | nil => intro bt h; simp [iterGo] at h
  | cons p ps ih =>
    intro bt h
    simp only [iterGo] at h
    rw [if_neg (by simp)] at h
    rcases List.mem_append.mp h with h1 | h1
    · exact (mem_blocksOfPage doc p n g bt h1).2
    · exact ih (n + 1) bt h1

theorem iterGo_after_qualify (doc : List Page) (ps : List Page) :
    ∀ (k : Nat) (pj : Page) (n : Nat) (g : GeometryDict),
      ps.get? k = some pj → pageQualifies pj →
      (∀ i pi, i < k → ps.get? i = some pi → ¬ pageQualifies pi) →
      ∀ bt ∈ iterGo doc ps n g false, n + k ≤ bt.pageNumber →
        bt.geo = extract_page_geometry_coordinates pj := by
  induction ps with
  | nil => intro k pj n g hk; simp [List.get?] at hk
  | cons p ps ih =>
    intro k pj n g hk hq hearlier bt hbt hle
    cases k with
    | zero =>
      have hp : p = pj := by simpa [List.get?] using hk
      subst hp
      obtain ⟨hsearch, hgeo⟩ := hq
      simp only [iterGo] at hbt
      rw [if_pos ⟨trivial, hsearch⟩] at hbt
      rcases List.mem_append.mp hbt with h1 | h1
      · exact (mem_blocksOfPage _ _ _ _ _ h1).2
      · rw [hgeo] at h1
        exact iterGo_frozen doc ps (n + 1) _ bt h1
    | succ k' =>
      have hget : ps.get? k' = some pj := by simpa [List.get?] using hk
      have hnotq : ¬ pageQualifies p := hearlier 0 p (Nat.succ_pos k') rfl
      have hshift : ∀ i pi, i < k' → ps.get? i = some pi → ¬ pageQualifies pi :=
        fun i pi hi hp => hearlier (i + 1) pi (Nat.succ_lt_succ hi) (by simpa [List.get?] using hp)
      have hle' : n + 1 + k' ≤ bt.pageNumber := by omega
      simp only [iterGo] at hbt
      by_cases hs : tagSearchB p.text = true
      · have hge : geoNonempty (extract_page_geometry_coordinates p) = false := by
          rcases hb : geoNonempty (extract_page_geometry_coordinates p) with _ | _
          · rfl
          · exact absurd ⟨hs, hb⟩ hnotq
        rw [if_pos ⟨trivial, hs⟩] at hbt
        rw [hge] at hbt
        rcases List.mem_append.mp hbt with h1 | h1
        · exfalso
          have := (mem_blocksOfPage _ _ _ _ _ h1).1
          omega
        · exact ih k' pj (n + 1) _ hget hq hshift bt h1 hle'
      · rw [if_neg (by simp [hs])] at hbt
        rcases List.mem_append.mp hbt with h1 | h1
        · exfalso
          have := (mem_blocksOfPage _ _ _ _ _ h1).1
          omega
        · exact ih k' pj (n + 1) g hget hq hshift bt h1 hle'

/-! ### C8 lemmas: segmentation yields exactly the inter-tag spans -/

theorem sliceFromStr_eq_slice (text : String) (s0 : Nat) :
    sliceFromStr text s0 = sliceStr text s0 text.toList.length := by
  unfold sliceFromStr sliceStr sliceL
  congr 1
  rw [List.take_of_length_le]
  rw [List.length_drop]

theorem blocksGo_spec (text : String) (rest : List Nat) (s0 : Nat) :
    blocksGo text s0 rest =
      ((s0 :: rest).zip (rest ++ [text.toList.length])).map
        (fun ab => lstripNl (sliceStr text ab.1 ab.2)) := by
  induction rest generalizing s0 with
  | nil =>
    simp only [blocksGo, List.nil_append, List.zip_cons_cons, List.zip_nil_right,
      List.map_cons, List.map_nil]
    rw [sliceFromStr_eq_slice]
  | cons m ms ih =>
    simp only [blocksGo, List.cons_append, List.zip_cons_cons, List.map_cons]
    rw [ih m]

/-! ### C10 lemmas: a tag occurrence needs a preceding newline -/

theorem tagMatchLen_bare (l : List Char) (j k : Nat)
    (h : tagMatchLen (l.drop j) = some k) :
    bareTagOccursAt l (j + 1) = true ∧ j + 1 < l.length := by
  rcases hdrop : l.drop j with _ | ⟨c, rest⟩
  · rw [hdrop] at h; simp [tagMatchLen] at h
  · rw [hdrop] at h
    simp only [tagMatchLen] at h
    by_cases hc : c = '\n'
    · rw [if_pos hc] at h
      rcases hsp : stripPrefixL "PATIENT".toList rest with _ | r1
      · rw [hsp] at h; simp at h
      · rw [hsp] at h
        dsimp only at h
        rcases hdw : dropWs r1 with _ | ⟨c2, r2⟩
        · rw [hdw] at h; simp at h
        · rw [hdw] at h
          by_cases hc2 : c2 = ':'
          · have hdropSucc : l.drop (j + 1) = rest := by
              have h1 : l.drop (j + 1) = (l.drop j).drop 1 := by
                rw [List.drop_drop]
              rw [h1, hdrop]
              rfl
            constructor
            · unfold bareTagOccursAt
              rw [hdropSucc, hsp]
              dsimp only
              rw [hdw]
              dsimp only
              rw [if_pos hc2]
            · have hne : rest ≠ [] := by
                intro hnil
                rw [hnil] at hsp
                simp [stripPrefixL, String.toList] at hsp
              have : l.drop (j + 1) ≠ [] := by rw [hdropSucc]; exact hne
              have := mt List.drop_eq_nil_iff.mpr this
              omega
          · dsimp only at h
            rw [if_neg hc2] at h
            exact absurd h (by simp)
    · rw [if_neg hc] at h; simp at h

theorem tagMatchLen_none_of_bare (l : List Char)
    (hb : ∀ i, i < l.length → bareTagOccursAt l i = true → i = 0) :
    ∀ j, tagMatchLen (l.drop j) = none := by
  intro j
  cases h : tagMatchLen (l.drop j) with
  | none => rfl
  | some k =>
    exfalso
    obtain ⟨hbare, hlt⟩ := tagMatchLen_bare l j k h
    have := hb (j + 1) hlt hbare
    omega

theorem tagSearchAux_none (l : List Char) (h : ∀ j, tagMatchLen (l.drop j) = none) :
    tagSearchAux l = false := by
  induction l with
  | nil => rfl
  | cons c rest ih =>
    simp only [tagSearchAux]
    have h0 : tagMatchLen (c :: rest) = none := h 0
    rw [h0]
    simp only [Option.isSome_none, Bool.false_or]
    exact ih (fun j => h (j + 1))

theorem tagStartsAux_none (fuel : Nat) :
    ∀ (l : List Char) (pos : Nat), (∀ j, tagMatchLen (l.drop j) = none) →
      tagStartsAux fuel l pos = [] := by
  induction fuel with
  | zero => intro l pos _; simp [tagStartsAux]
  | succ f ih =>
    intro l pos h
    cases l with
    | nil => simp [tagStartsAux]
    | cons c rest =>
      simp only [tagStartsAux]
      have h0 : tagMatchLen (c :: rest) = none := h 0
      rw [h0]
      exact ih rest (pos + 1) (fun j => h (j + 1))

/-! ### Key-set helpers for C2 and C5 -/

theorem dkeys_dset_not_mem (d : Dict) (k v : String) (h : k ∉ dkeys d) :
    dkeys (dset d k v) = dkeys d ++ [k] := by
  induction d with
  | nil => rfl
  | cons kv rest ih =>
    obtain ⟨k₀, v₀⟩ := kv
    have hne : k₀ ≠ k := by
      intro he
      exact h (by simp [dkeys, he])
    rw [show dset ((k₀, v₀) :: rest) k v = (k₀, v₀) :: dset rest k v from by simp [dset, hne]]
    have hrest : k ∉ dkeys rest := fun hm => h (by simp [dkeys] at hm ⊢; exact Or.inr hm)
    simp only [dkeys, List.map_cons, List.cons_append, List.cons.injEq, true_and]
    exact ih hrest

theorem dkeys_claimref (t : String) :
    dkeys (applyClaimRefPatterns base_data0 t) =
      FIELD_EXTRACTION_PATTERNS.map Prod.fst ++ ["Claim Number", "Orig Ref Num"] := by
  rw [applyClaimRef_eq]
  rw [dkeys_dset_not_mem _ _ _ (by
    rw [dkeys_dset_not_mem _ _ _ (by rw [show dkeys base_data0 =
      FIELD_EXTRACTION_PATTERNS.map Prod.fst from dkeys_constdict _]; decide)]
    rw [show dkeys base_data0 = FIELD_EXTRACTION_PATTERNS.map Prod.fst from dkeys_constdict _]
    decide)]
  rw [dkeys_dset_not_mem _ _ _ (by rw [show dkeys base_data0 =
    FIELD_EXTRACTION_PATTERNS.map Prod.fst from dkeys_constdict _]; decide)]
  rw [show dkeys base_data0 = FIELD_EXTRACTION_PATTERNS.map Prod.fst from dkeys_constdict _]
  rfl

theorem basic_mem_claimref (k t : String)
    (hk : k ∈ FIELD_EXTRACTION_PATTERNS.map Prod.fst ∨ k = "Claim Number" ∨
      k = "Orig Ref Num") :
    k ∈ dkeys (applyClaimRefPatterns base_data0 t) := by
  rw [dkeys_claimref]
  simp only [List.mem_append, List.mem_cons, List.not_mem_nil, or_false]
  tauto

theorem geo_not_in_claimref (k : String) (hk : k ∈ geoKeys) (t : String) :
    k ∉ dkeys (applyClaimRefPatterns base_data0 t) := by
  rw [dkeys_claimref]
  fin_cases hk <;> decide

/-- The record emitted for a single-page block whose crop rectangle did not
resolve: the run continues and the three geometry keys are never assigned. -/
theorem singleSkip_record (bt : BlockTuple) (hresp : respSearch16 bt.blockText = true)
    (hnone : create_claim_block_crop_rectangle bt.page (claimNumberOf bt.blockText)
      (origRefOf bt.blockText) = none) :
    process_individual_patient_block bt =
      some [dictUpdate (applyPatterns FIELD_EXTRACTION_PATTERNS bt.blockText
        (applyClaimRefPatterns base_data0 bt.blockText))
        (extract_header_field_information bt.pageText)] := by
  have hps : processSingle bt =
      some (applyClaimRefPatterns base_data0 bt.blockText, bt.blockText) := by
    unfold processSingle
    rw [dget?_claimref_cn, dget?_claimref_orn]
    simp only [Option.bind_eq_bind, Option.some_bind]
    rw [hnone]
    rfl
  unfold process_individual_patient_block
  rw [hresp, if_neg (by simp), hps]
  simp only [Option.bind_eq_bind, Option.some_bind]
  rfl

/-! ### Claim theorems -/

/-- Claim C2, corrected.  For every block whose processing completes, the
emitted record always contains all tag-based, both claim-reference, and all
header field keys (17 keys, defaulting to the empty string when nothing
matches); each of the three geometry-derived keys, however, is present if
and only if the block did NOT take the single-page path with an unresolved
crop rectangle — in that skip case the three keys are absent from the
record, so a record can be a partial object. -/
theorem claim2_record_keys (bt : BlockTuple) (l : List Dict)
    (h : process_individual_patient_block bt = some l) :
    ∀ r ∈ l, (∀ k ∈ basicKeys, k ∈ dkeys r) ∧
      (∀ k ∈ geoKeys, (k ∈ dkeys r ↔ ¬ singleSkip bt)) := by
  obtain ⟨st, hbranch, hl⟩ := process_inv bt l h
  subst hl
  intro r hr
  simp only [List.mem_singleton] at hr
  subst hr
  constructor
  · intro k hk
    have hk' : (k ∈ FIELD_EXTRACTION_PATTERNS.map Prod.fst ∨ k = "Claim Number" ∨
        k = "Orig Ref Num") ∨ k ∈ HEADER_FIELD_PATTERNS.map Prod.fst := by
      simp only [basicKeys, List.mem_append, List.mem_cons, List.not_mem_nil, or_false] at hk
      tauto
    rcases hk' with hk1 | hk2
    · refine key_in_final k st.1 st.2 bt.pageText (Or.inl ?_)
      rcases hbranch with ⟨_, hmulti⟩ | ⟨_, hsingle⟩
      · obtain ⟨dos, svc, mods, hshape⟩ := processMulti_inv bt st hmulti
        rw [hshape]
        exact mem_dkeys_dset_of_mem _ _ _ _ (mem_dkeys_dset_of_mem _ _ _ _
          (mem_dkeys_dset_of_mem _ _ _ _ (basic_mem_claimref k st.2 hk1)))
      · obtain ⟨hst2, hcase⟩ := processSingle_inv bt st hsingle
        rcases hcase with ⟨_, hshape⟩ | ⟨rect, dos, svc, mods, _, hshape⟩
        · rw [hshape]
          exact basic_mem_claimref k bt.blockText hk1
        · rw [hshape]
          exact mem_dkeys_dset_of_mem _ _ _ _ (mem_dkeys_dset_of_mem _ _ _ _
            (mem_dkeys_dset_of_mem _ _ _ _ (basic_mem_claimref k bt.blockText hk1)))
    · exact key_in_final k st.1 st.2 bt.pageText (Or.inr hk2)
  · intro k hk
    have hkin : ∀ (d0 : Dict) (tx : String) (dos svc mods : String),
        k ∈ dkeys (dset (dset (dset d0 "Date Of Service" dos) "Service Code" svc)
          "Modifier" mods) := by
      intro d0 tx dos svc mods
      fin_cases hk
      · exact mem_dkeys_dset_of_mem _ _ _ _ (mem_dkeys_dset_of_mem _ _ _ _
          (mem_dkeys_dset_self _ _ _))
      · exact mem_dkeys_dset_of_mem _ _ _ _ (mem_dkeys_dset_self _ _ _)
      · exact mem_dkeys_dset_self _ _ _
    rcases hbranch with ⟨hresp, hmulti⟩ | ⟨hresp, hsingle⟩
    · obtain ⟨dos, svc, mods, hshape⟩ := processMulti_inv bt st hmulti
      have hns : ¬ singleSkip bt := by
        intro hsk
        have h1 : respSearch16 bt.blockText = true := hsk.1
        rw [hresp] at h1
        exact Bool.false_ne_true h1
      refine ⟨fun _ => hns, fun _ => ?_⟩
      refine key_in_final k st.1 st.2 bt.pageText (Or.inl ?_)
      rw [hshape]
      exact hkin _ st.2 dos svc mods
    · obtain ⟨hst2, hcase⟩ := processSingle_inv bt st hsingle
      rcases hcase with ⟨hnone, hshape⟩ | ⟨rect, dos, svc, mods, hsome, hshape⟩
      · have hskip : singleSkip bt := ⟨hresp, hnone⟩
        have habs : k ∉ dkeys (dictUpdate (applyPatterns FIELD_EXTRACTION_PATTERNS st.2 st.1)
            (extract_header_field_information bt.pageText)) := by
          apply geo_key_not_in_final k hk
          rw [hshape]
          exact geo_not_in_claimref k hk bt.blockText
        exact ⟨fun hmem => absurd hmem habs, fun hns => absurd hskip hns⟩
      · have hns : ¬ singleSkip bt := by
          intro hsk
          have h2 := hsk.2
          rw [hsome] at h2
          exact Option.noConfusion h2
        refine ⟨fun _ => hns, fun _ => ?_⟩
        refine key_in_final k st.1 st.2 bt.pageText (Or.inl ?_)
        rw [hshape]
        exact hkin _ bt.blockText dos svc mods

/-- Claim C2, counterexample.  A single-page block (closing marker present)
whose claim text cannot be located on the page completes, but the emitted
record has NO `Modifier` key at all — the claim says every record carries
every key of the fixed field set with an empty-string default. -/
theorem claim2_counterexample :
    (process_individual_patient_block btC2c).map
      (fun l => l.map (fun r => dget? r "Modifier")) = some [none] := rfl

/-- Claim C2, witness: the amended theorem applied to a concrete multi-page
block with no crop regions. -/
theorem claim2_witness :
    "Patient Name" ∈ dkeys recC2w ∧ ("Modifier" ∈ dkeys recC2w ↔ ¬ singleSkip btC2w) := by
  have h := claim2_record_keys btC2w [recC2w] rfl recC2w (by simp)
  exact ⟨h.1 "Patient Name" (by decide), h.2 "Modifier" (by decide)⟩

/-- Claim C1 (code bug).  A document whose pages yield no geometry landmarks
keeps an empty `GeometryProfile`; the spec says spatial extraction then
degrades to empty strings and the run never raises.  On `pageC1` the crop
rectangle nevertheless resolves (claim number and `PAT RESP:` found), and
`extract_patient_dates_of_service` reads `geometry_dict["dos_x0"]` from the
empty dict — a `KeyError` that aborts the whole run (`none` here). -/
theorem claim1_empty_profile_crash :
    geoNonempty (extract_page_geometry_coordinates pageC1) = false ∧
      process_pdf_and_create_dataframe (DocSource.ok [pageC1]) = none := ⟨rfl, rfl⟩

/-- Claim C3, counterexample.  A run whose document path does not exist is
NOT aborted and no failure is surfaced: `iterate_all_patient_blocks` prints
and yields nothing, and the run completes normally with an empty frame. -/
theorem claim3_counterexample :
    process_pdf_and_create_dataframe DocSource.missing = some ⟨EXPECTED_COLUMNS, []⟩ := rfl

/-- Claim C3, corrected.  Only an error raised by the document library while
opening/reading (`fitz.open`) aborts the run and propagates with no partial
output; a nonexistent document path is handled silently and produces a
normal, empty output frame. -/
theorem claim3_io_failures :
    process_pdf_and_create_dataframe DocSource.openFail = none ∧
      process_pdf_and_create_dataframe DocSource.missing = some ⟨EXPECTED_COLUMNS, []⟩ :=
  ⟨rfl, rfl⟩

/-- Claim C4, counterexample.  (1) On a single-region crop list the
extractor raises (`first, *middle, last` unpacking needs two elements)
instead of computing anything; (2) on a two-region list the code's result
(`"B"`) differs from the computation the claim describes
(`multiClaimSpec`, which nudges only the first region's top and only the
last region's bottom and yields `"A,B"`): the code nudges EVERY region's
top down by 20. -/
theorem claim4_counterexample :
    extract_dates_of_service_from_multiple_pages cropsC4a geoC4 = none ∧
      extract_dates_of_service_from_multiple_pages cropsC4b geoC4 = some "B" ∧
      multiClaimSpec 5 60 cropsC4b = "A,B" := by
  refine ⟨rfl, ?_, ?_⟩ <;> decide

/-- Claim C4, corrected.  For a crop list with at least two regions and a
profile carrying the respective column bounds, each of the three
geometry-derived fields applies the field's column bounds to every region,
nudging EVERY region's top down by 20 and additionally the last region's
bottom up by 20, collects the distinct stripped non-empty lines in
first-seen order across the regions, and joins them with commas; a
single-region list raises an unpacking error instead. -/
theorem claim4_multipage_extraction (crops : List (Page × Rect)) (g : GeometryDict)
    (d0 d1 a0 a1 m0 m1 : Int) (hlen : 2 ≤ crops.length)
    (hd0 : g.dos_x0 = some d0) (hd1 : g.dos_x1 = some d1)
    (ha0 : g.adj_x0 = some a0) (ha1 : g.adj_x1 = some a1)
    (hm0 : g.mod_x0 = some m0) (hm1 : g.mod_x1 = some m1) :
    extract_dates_of_service_from_multiple_pages crops g =
        some (multiAmendedSpec d0 (d1 - 35) crops) ∧
      extract_service_codes_from_multiple_pages crops g =
        some (multiAmendedSpec a0 a1 crops) ∧
      extract_modifiers_from_multiple_pages crops g =
        some (multiAmendedSpec m0 m1 crops) := by
  rcases crops with _ | ⟨f, _ | ⟨b, l⟩⟩
  · simp at hlen
  · simp at hlen
  · refine ⟨?_, ?_, ?_⟩
    · unfold extract_dates_of_service_from_multiple_pages
      dsimp only
      rw [hd0, hd1]
      simp only [Option.bind_eq_bind, Option.some_bind]
      exact multiCore_eq_amended d0 (d1 - 35) f b l
    · unfold extract_service_codes_from_multiple_pages
      dsimp only
      rw [ha0, ha1]
      simp only [Option.bind_eq_bind, Option.some_bind]
      exact multiCore_eq_amended a0 a1 f b l
    · unfold extract_modifiers_from_multiple_pages
      dsimp only
      rw [hm0, hm1]
      simp only [Option.bind_eq_bind, Option.some_bind]
      exact multiCore_eq_amended m0 m1 f b l

/-- Claim C4, witness: the amended theorem applied to the two-region list. -/
theorem claim4_witness :
    2 ≤ cropsC4b.length ∧
      extract_dates_of_service_from_multiple_pages cropsC4b geoC4 =
        some (multiAmendedSpec 5 (95 - 35) cropsC4b) :=
  ⟨by decide,
   (claim4_multipage_extraction cropsC4b geoC4 5 95 5 60 5 60 (by decide)
      rfl rfl rfl rfl rfl rfl).1⟩

/-- Claim C5, corrected.  (a) The crop rectangle of a single-page block is
resolved exactly as `cropRectSpec` describes: bottom bound from, in
priority order, the original-reference hit, else the next claim number's
row minus the fixed margin provided that offset is non-zero (Python `or`
treats a zero coordinate as falsy and falls through), else the lowest
`PAT RESP:` occurrence at or below the claim row; no rectangle unless the
bottom is strictly below the padded top.  (b) When the rectangle does not
resolve, processing completes without failing the document, but the three
geometry-derived keys are ABSENT from the emitted record rather than set to
the empty string. -/
theorem claim5_crop_priority :
    (∀ (page : Page) (cn orn : String),
      create_claim_block_crop_rectangle page cn orn = cropRectSpec page cn orn) ∧
    (∀ bt : BlockTuple, respSearch16 bt.blockText = true →
      create_claim_block_crop_rectangle bt.page (claimNumberOf bt.blockText)
        (origRefOf bt.blockText) = none →
      ∃ r, process_individual_patient_block bt = some [r] ∧
        "Date Of Service" ∉ dkeys r ∧ "Service Code" ∉ dkeys r ∧ "Modifier" ∉ dkeys r) := by
  constructor
  · exact create_eq_cropRectSpec
  · intro bt hresp hnone
    refine ⟨_, singleSkip_record bt hresp hnone, ?_, ?_, ?_⟩
    · exact geo_key_not_in_final _ (by decide) _ _ _ (geo_not_in_claimref _ (by decide) _)
    · exact geo_key_not_in_final _ (by decide) _ _ _ (geo_not_in_claimref _ (by decide) _)
    · exact geo_key_not_in_final _ (by decide) _ _ _ (geo_not_in_claimref _ (by decide) _)

/-- Claim C5, counterexample.  On `btC5c` no bottom bound resolves, spatial
extraction is skipped — but the `Date Of Service` key is missing from the
record entirely (`dget?` returns `none`), not "empty string" as claimed. -/
theorem claim5_counterexample :
    (process_individual_patient_block btC5c).map
      (fun l => l.map (fun r => dget? r "Date Of Service")) = some [none] := rfl

/-- Claim C5, witness: the corrected theorem applied to `blankPage` (part a)
and to the concrete block `btC5w` whose claim number `88` is unlocatable
(part b). -/
theorem claim5_witness :
    create_claim_block_crop_rectangle blankPage "88" "" = cropRectSpec blankPage "88" "" ∧
      (∃ r, process_individual_patient_block btC5w = some [r] ∧
        "Date Of Service" ∉ dkeys r ∧ "Service Code" ∉ dkeys r ∧ "Modifier" ∉ dkeys r) :=
  ⟨claim5_crop_priority.1 blankPage "88" "",
   claim5_crop_priority.2 btC5w (by decide) rfl⟩

/-- Claim C6, confirmed.  Once a page qualifies for calibration (patient tag
present and at least one landmark resolved) and no earlier page did, every
block emitted for that page or any later page carries exactly the geometry
profile derived from that first qualifying page — the profile is frozen and
never recomputed. -/
theorem claim6_geometry_frozen (pages : List Page) (j : Nat) (pj : Page)
    (hj : pages.get? j = some pj) (hq : pageQualifies pj)
    (hfirst : ∀ i pi, i < j → pages.get? i = some pi → ¬ pageQualifies pi) :
    ∀ bt ∈ iterate_blocks pages, j ≤ bt.pageNumber →
      bt.geo = extract_page_geometry_coordinates pj := by
  intro bt hbt hle
  exact iterGo_after_qualify pages pages j pj 0 emptyGeo hj hq hfirst bt hbt (by omega)

/-- Claim C6, witness: a two-page document whose pages would yield different
` DOS ` landmark coordinates; the page-2 block still carries page-1's
profile. -/
theorem claim6_witness : witBt2.geo = extract_page_geometry_coordinates witPage1 :=
  claim6_geometry_frozen [witPage1, witPage2] 0 witPage1 rfl (by decide)
    (fun i pi hi _ => absurd hi (Nat.not_lt_zero i)) witBt2
    (by
      have h : iterate_blocks [witPage1, witPage2] = [witBt1, witBt2] := rfl
      rw [h]
      exact List.mem_cons_of_mem _ (List.mem_cons_self _ _))
    (by omega)

/-- Claim C7, confirmed.  The continuation stitcher visits at most
`page_count` pages beyond the block's origin (its region list is never
longer than the document), and the pages it consumes are exactly the pages
after the origin up to and including the first one carrying the `PATIENT:`
landmark — it does not advance past that page — or all remaining pages when
no such page exists. -/
theorem claim7_stitcher_stops (doc : List Page) (n : Nat) :
    (get_remaining_patient_block_content doc n).1.length ≤ doc.length ∧
      (get_remaining_patient_block_content doc n).1.map Prod.fst =
        (doc.drop (n + 1)).take (stitchStopCount (doc.drop (n + 1))) := by
  unfold get_remaining_patient_block_content
  refine ⟨?_, (remainAux_spec _).1⟩
  calc (remainAux (doc.drop (n + 1))).1.length
      ≤ (doc.drop (n + 1)).length := (remainAux_spec _).2
    _ ≤ doc.length := by rw [List.length_drop]; omega

/-- Claim C8, confirmed.  Per page, zero tag occurrences yield no blocks and
no error; with n ≥ 1 occurrences, segmentation yields exactly n spans in
text order, each running from one tag start offset to the next tag start
(the last to end of text) with leading newlines trimmed. -/
theorem claim8_segmentation (t : String) :
    extract_patient_blocks_texts t = blockSpansSpec t ∧
      (extract_patient_blocks_texts t).length = (tagStarts t).length ∧
      (tagStarts t = [] → extract_patient_blocks_texts t = []) := by
  have hmain : extract_patient_blocks_texts t = blockSpansSpec t := by
    unfold extract_patient_blocks_texts blockSpansSpec
    cases hst : tagStarts t with
    | nil => rfl
    | cons s0 rest => exact blocksGo_spec t rest s0
  refine ⟨hmain, ?_, fun h => by rw [hmain]; unfold blockSpansSpec; rw [h]; rfl⟩
  rw [hmain]
  unfold blockSpansSpec
  rw [List.length_map, List.length_zip]
  cases tagStarts t with
  | nil => rfl
  | cons s0 rest => simp

/-- Claim C9, confirmed.  The pipeline is a pure function of the document
source: the parser instance is returned unchanged (no Python method assigns
an attribute after `__init__`), so running the pipeline a second time on the
state left by the first run yields an identical output frame. -/
theorem claim9_idempotent (parser : ParserInstance) (src : DocSource) :
    (run_processing (run_processing parser src).1 src).2 = (run_processing parser src).2 ∧
      (run_processing parser src).1 = parser := ⟨rfl, rfl⟩

/-- Claim C10, confirmed.  If every occurrence of `PATIENT\s*:` in a page's
text sits at offset 0 (so none is preceded by a newline), the patient-tag
pattern `\nPATIENT\s*:` never matches: the page triggers no calibration and
contributes zero blocks. -/
theorem claim10_no_tag_at_offset_zero (t : String)
    (h : ∀ i, i < t.toList.length → bareTagOccursAt t.toList i = true → i = 0) :
    tagSearchB t = false ∧ extract_patient_blocks_texts t = [] := by
  have hnone := tagMatchLen_none_of_bare t.toList h
  constructor
  · exact tagSearchAux_none t.toList hnone
  · unfold extract_patient_blocks_texts tagStarts
    rw [tagStartsAux_none _ _ _ hnone]

/-- Claim C10, witness: a page whose text starts with `PATIENT : ` and has
no other tag occurrence. -/
theorem claim10_witness :
    tagSearchB "PATIENT : JOHN DOE" = false ∧
      extract_patient_blocks_texts "PATIENT : JOHN DOE" = [] :=
  claim10_no_tag_at_offset_zero "PATIENT : JOHN DOE" (by decide)

end MedParse
